import Mathlib

/-!
Verification development for `adapter/outboundgroup/parser.go` of the clash
repository: the resolver that turns one declarative proxy-group
configuration into a concrete group adapter, registering synthetic
providers into a shared provider registry along the way.

The Go code is shallowly embedded below.  External collaborators (the
schema decoder, the regexp engine, the `provider` package constructors and
the five adapter variants) are either taken as parameters or modelled from
the spec, as indicated at each definition.
-/

namespace OutboundGroup

/-- An individual proxy endpoint handle (`C.Proxy` in the source).  The
resolver only moves handles between containers and never inspects them, so
handle identity is all that matters and a natural number suffices. -/
abbrev Proxy := Nat

/-- A health-check policy as constructed by
`provider.NewHealthCheck(ps, url, interval, lazy)`; the constructor simply
stores its four arguments, the probing loop itself is out of scope. -/
structure HealthCheck where
  proxies : List Proxy
  url : String
  interval : Nat
  lazy : Bool
deriving DecidableEq, Repr

/-- Go `uint(i)` applied to the decoded (signed) `interval` field at
`provider.NewHealthCheck(ps, groupOption.URL, uint(groupOption.Interval), …)`. -/
def goUint (i : Int) : Nat := (i % (2 : Int) ^ 64).toNat

/-- The provider values that can be reached from this core
(`types.ProxyProvider` in the source):
`setProvider` is `*provider.ProxySetProvider` (a dynamic pool backed by a
refreshable endpoint set), `compatible` is the synthetic
`*provider.CompatibleProvider` wrapping inline endpoints, and
`filterProvider` is the derived `*provider.ProxyFilterProvider` wrapping a
parent provider with an optional compiled name filter. -/
inductive ProxyProvider where
  | setProvider (name : String)
  | compatible (name : String) (proxies : List Proxy) (hc : HealthCheck)
  | filterProvider (name : String) (parent : ProxyProvider) (hc : HealthCheck)
      (filter : Option String)
deriving DecidableEq, Repr

/-- The provider's `Name()` accessor. -/
def ProxyProvider.pname : ProxyProvider → String
  | .setProvider n => n
  | .compatible n _ _ => n
  | .filterProvider n _ _ _ => n

/-- Whether the dynamic type of the provider is `*provider.ProxySetProvider`
(the Go type assertion `p.(*provider.ProxySetProvider)` in `getProviders`). -/
def ProxyProvider.isSet : ProxyProvider → Bool
  | .setProvider _ => true
  | _ => false

/-- All health-check policies reachable from a provider value. -/
def ProxyProvider.hcs : ProxyProvider → List HealthCheck
  | .setProvider _ => []
  | .compatible _ _ hc => [hc]
  | .filterProvider _ parent hc _ => hc :: parent.hcs

/-- The bound configuration `GroupCommonOption` (tag-decoded fields of the
Go struct; `typ` is the Go field `Type`, a Lean keyword).  The embedded
`outbound.BasicOption` carries no field this core reads, so it is omitted. -/
structure GroupCommonOption where
  name : String
  typ : String
  proxies : List String
  use : List String
  url : String
  interval : Int
  lazy : Bool
  disableUDP : Bool
  disableDNS : Bool
  filter : String
deriving DecidableEq, Repr

/-- The error values this core can return.  `withName g e` is
`fmt.Errorf("%s: %w", g, e)`; `unsupported g k` is the specially formatted
`fmt.Errorf("%s %w: %s", g, errType, k)`; the remaining constructors are the
package-level sentinel errors and the ad-hoc `fmt.Errorf` messages. -/
inductive GroupError where
  | format
  | missProxy
  | missHealthCheck
  | duplicateProvider
  | notFound (name : String)
  | incompatibleUse (name : String)
  | invalidFilter (pattern : String)
  | unsupported (groupName : String) (kind : String)
  | strategyNotSupported (strategy : String)
  | withName (groupName : String) (e : GroupError)
deriving DecidableEq, Repr

/-- Rendering of the error values as Go renders them with `Error()`.  The
inner text of `invalidFilter` stands in for the external regexp engine's
message, whose exact wording is outside this core. -/
def errMsg : GroupError → String
  | .format => "format error"
  | .missProxy => "`use` or `proxies` missing"
  | .missHealthCheck => "`url` or `interval` missing"
  | .duplicateProvider => "duplicate provider name"
  | .notFound n => "'" ++ n ++ "' not found"
  | .incompatibleUse n => "proxy group " ++ n ++ " can't contains in `use`"
  | .invalidFilter pat => "invalid filter regex: " ++ pat
  | .unsupported gn k => gn ++ " unsupported type: " ++ k
  | .strategyNotSupported s => "strategy not supported: " ++ s
  | .withName gn e => gn ++ ": " ++ errMsg e

/-- Whether the rendered error message starts with the given group name
(the two constructors that embed the group name up front). -/
def hasNamePfx (n : String) : GroupError → Bool
  | .withName m _ => n == m
  | .unsupported m _ => n == m
  | _ => false

/-- The mutable state this core touches besides its return value:
`providersMap` is the shared ProviderRegistry (association list, most
recent insertion first, observed through `List.lookup`), and `inUse`
records the `RegisterProvidersInUse` side effects as
(source provider, registered dependent) pairs made by the call. -/
structure PState where
  providersMap : List (String × ProxyProvider)
  inUse : List (ProxyProvider × ProxyProvider)
deriving DecidableEq, Repr

/-- `getProxies(mapping, list)`: resolve endpoint names in order, failing on
the first missing name. -/
def getProxies (mapping : List (String × Proxy)) :
    List String → Except GroupError (List Proxy)
  | [] => .ok []
  | name :: rest =>
    match mapping.lookup name with
    | none => .error (.notFound name)
    | some p =>
      match getProxies mapping rest with
      | .error e => .error e
      | .ok ps => .ok (p :: ps)

/-- `newHealthCheck(ps, groupOption)`: select/relay groups get the disabled
policy (empty URL, zero interval, laziness true); every other kind requires
a non-empty URL and a non-zero interval. -/
def newHealthCheck (ps : List Proxy) (g : GroupCommonOption) :
    Except GroupError HealthCheck :=
  if g.typ = "select" ∨ g.typ = "relay" then
    .ok ⟨ps, "", 0, true⟩
  else if g.url = "" ∨ g.interval = 0 then
    .error .missHealthCheck
  else
    .ok ⟨ps, g.url, goUint g.interval, g.lazy⟩

/-- `getProviders(mapping, groupOption, filterRegx)` iterated over a name
list: each name must resolve to a `ProxySetProvider`; a fresh health check
and a derived filter provider named `"<source>-in-<group>"` are built per
name, and the derived provider is registered with its source
(`pp.RegisterProvidersInUse(fp)`).  The second component collects those
registrations; they persist even when a later iteration fails, exactly as
the Go side effects do. -/
def getProviders (mapping : List (String × ProxyProvider)) (g : GroupCommonOption)
    (filterRegx : Option String) :
    List String →
      Except GroupError (List ProxyProvider) × List (ProxyProvider × ProxyProvider)
  | [] => (.ok [], [])
  | name :: rest =>
    match mapping.lookup name with
    | none => (.error (.notFound name), [])
    | some p =>
      if p.isSet then
        match newHealthCheck [] g with
        | .error e => (.error e, [])
        | .ok hc =>
          let fp := ProxyProvider.filterProvider (name ++ "-in-" ++ g.name) p hc filterRegx
          match getProviders mapping g filterRegx rest with
          | (.error e, regs) => (.error e, (p, fp) :: regs)
          | (.ok ps, regs) => (.ok (fp :: ps), (p, fp) :: regs)
      else
        (.error (.incompatibleUse name), [])

/-- Modelled from the spec: `provider.NewCompatibleProvider(name, ps, hc)`
lives in the external `provider` package.  Section 4.5 of the spec has the
assembler "build a single synthetic provider wrapping them with the group's
own health-check policy" and describes no failure of this construction, so
it is modelled as always succeeding with the wrapped value. -/
def NewCompatibleProvider (name : String) (ps : List Proxy) (hc : HealthCheck) :
    Except GroupError ProxyProvider :=
  .ok (.compatible name ps hc)

/-- The terminal group adapter, one variant per strategy kind.  The variant
constructors (`NewURLTest`, `NewSelector`, `NewFallback`, `NewLoadBalance`,
`NewRelay`) are external; per the spec each holds the ordered provider list
(plus the algorithm tag for load-balance).  The `parseURLTestOption` extras
do not affect anything this development observes and are omitted. -/
inductive ProxyGroupAdapter where
  | urlTest (g : GroupCommonOption) (providers : List ProxyProvider)
  | selector (g : GroupCommonOption) (providers : List ProxyProvider)
  | fallback (g : GroupCommonOption) (providers : List ProxyProvider)
  | loadBalance (g : GroupCommonOption) (providers : List ProxyProvider) (strategy : String)
  | relay (g : GroupCommonOption) (providers : List ProxyProvider)
deriving DecidableEq, Repr

/-- The ordered provider list held by an adapter. -/
def ProxyGroupAdapter.providers : ProxyGroupAdapter → List ProxyProvider
  | .urlTest _ ps => ps
  | .selector _ ps => ps
  | .fallback _ ps => ps
  | .loadBalance _ ps _ => ps
  | .relay _ ps => ps

/-- Modelled from the spec: `NewLoadBalance` is external; section 4.5 says
its constructor parses a distribution-algorithm selector and "may itself
fail (propagates)".  It is modelled as succeeding on the recognized
algorithm tags and failing, unwrapped, on anything else. -/
def NewLoadBalance (g : GroupCommonOption) (providers : List ProxyProvider)
    (strategy : String) : Except GroupError ProxyGroupAdapter :=
  if strategy = "consistent-hashing" ∨ strategy = "round-robin" then
    .ok (.loadBalance g providers strategy)
  else
    .error (.strategyNotSupported strategy)

/-- The filter-compilation step of `ParseProxyGroup` (lines 61–68): an empty
pattern is skipped; otherwise the external regexp engine (the
`regexCompile` parameter) is consulted and its failure is wrapped as
`"%s: invalid filter regex: %w"`. -/
def compileFilter (regexCompile : String → Option String) (g : GroupCommonOption) :
    Except GroupError (Option String) :=
  if g.filter = "" then .ok none
  else
    match regexCompile g.filter with
    | none => .error (.withName g.name (.invalidFilter g.filter))
    | some r => .ok (some r)

/-- The inline-proxies block of `ParseProxyGroup` (lines 75–97): resolve the
listed endpoints, guard against a registry entry already present under the
group's name, build the group's health check and the synthetic compatible
provider, and insert it into the registry.  Returns the provider list so
far and the updated registry; errors are returned unwrapped and wrapped with
the group name by the caller, as each `fmt.Errorf("%s: %w", …)` does. -/
def inlineStep (proxyMap : List (String × Proxy))
    (providersMap : List (String × ProxyProvider)) (g : GroupCommonOption) :
    Except GroupError (List ProxyProvider × List (String × ProxyProvider)) :=
  if g.proxies = [] then .ok ([], providersMap)
  else
    match getProxies proxyMap g.proxies with
    | .error e => .error e
    | .ok ps =>
      match providersMap.lookup g.name with
      | some _ => .error .duplicateProvider
      | none =>
        match newHealthCheck ps g with
        | .error e => .error e
        | .ok hc =>
          match NewCompatibleProvider g.name ps hc with
          | .error e => .error e
          | .ok pd => .ok ([pd], (g.name, pd) :: providersMap)

/-- The `use` block of `ParseProxyGroup` (lines 99–103): derive filtered
sub-providers for the referenced names, reading the registry as updated by
the inline step. -/
def useStep (map1 : List (String × ProxyProvider)) (g : GroupCommonOption)
    (filterRegx : Option String) :
    Except GroupError (List ProxyProvider) × List (ProxyProvider × ProxyProvider) :=
  if g.use = [] then (.ok [], [])
  else getProviders map1 g filterRegx g.use

/-- The variant-dispatch switch of `ParseProxyGroup` (lines 112–128), in the
source's case order; only the load-balance constructor can fail and its
error is propagated unwrapped (`return NewLoadBalance(…)`), while the
default case formats the group name and offending kind itself. -/
def dispatch (g : GroupCommonOption) (strategy : String)
    (providers : List ProxyProvider) : Except GroupError ProxyGroupAdapter :=
  if g.typ = "url-test" then .ok (.urlTest g providers)
  else if g.typ = "select" then .ok (.selector g providers)
  else if g.typ = "fallback" then .ok (.fallback g providers)
  else if g.typ = "load-balance" then NewLoadBalance g providers strategy
  else if g.typ = "relay" then .ok (.relay g providers)
  else .error (.unsupported g.name g.typ)

/-- `ParseProxyGroup(config, proxyMap, providersMap)`.

The external schema decoder is represented by its outcome: `decoded` is
`none` when `decoder.Decode` fails and `some g` with the bound options
(defaults applied, e.g. `Lazy: true`) otherwise.  `regexCompile` is the
external regexp engine; `strategy` is the value the external
`parseStrategy(config)` extracts for load-balance groups.

The result pairs the Go return value with the post-call mutable state;
side effects performed before a failure persist in that state, exactly as
they do on the Go maps and providers. -/
def ParseProxyGroup (regexCompile : String → Option String)
    (decoded : Option GroupCommonOption) (strategy : String)
    (proxyMap : List (String × Proxy))
    (providersMap : List (String × ProxyProvider)) :
    Except GroupError ProxyGroupAdapter × PState :=
  match decoded with
  | none => (.error .format, ⟨providersMap, []⟩)
  | some g =>
    if g.typ = "" ∨ g.name = "" then (.error .format, ⟨providersMap, []⟩)
    else
      match compileFilter regexCompile g with
      | .error e => (.error e, ⟨providersMap, []⟩)
      | .ok filterRegx =>
        if g.proxies = [] ∧ g.use = [] then
          (.error (.withName g.name .missProxy), ⟨providersMap, []⟩)
        else
          match inlineStep proxyMap providersMap g with
          | .error e => (.error (.withName g.name e), ⟨providersMap, []⟩)
          | .ok (providers0, map1) =>
            match useStep map1 g filterRegx with
            | (.error e, regs) => (.error (.withName g.name e), ⟨map1, regs⟩)
            | (.ok list, regs) =>
              let providers :=
                if g.typ = "fallback" then list ++ providers0 else providers0 ++ list
              match dispatch g strategy providers with
              | .error e => (.error e, ⟨map1, regs⟩)
              | .ok a => (.ok a, ⟨map1, regs⟩)

/-- Specification helper: the derived filter provider that `getProviders`
builds for the referenced name `n` (used to state what a successful `use`
resolution returns). -/
def fpOf (mapping : List (String × ProxyProvider)) (g : GroupCommonOption)
    (f : Option String) (hc : HealthCheck) (n : String) : ProxyProvider :=
  .filterProvider (n ++ "-in-" ++ g.name) ((mapping.lookup n).getD (.setProvider n)) hc f

/-- Specification helper: the disabled health-check policy of the spec —
empty URL, zero interval, laziness true. -/
def disabledHC (hc : HealthCheck) : Prop :=
  hc.url = "" ∧ hc.interval = 0 ∧ hc.lazy = true

namespace Lookup

theorem cons_self {β : Type} (n : String) (v : β) (l : List (String × β)) :
    ((n, v) :: l).lookup n = some v := by
  simp [List.lookup]

theorem cons_ne {β : Type} {k n : String} (v : β) (l : List (String × β)) (h : k ≠ n) :
    ((n, v) :: l).lookup k = l.lookup k := by
  have hb : (k == n) = false := beq_eq_false_iff_ne.mpr h
  simp [List.lookup, hb]

end Lookup

theorem getProxies_all_found (m : List (String × Proxy)) (names : List String)
    (h : ∀ n ∈ names, (m.lookup n).isSome) :
    getProxies m names = .ok (names.map fun n => (m.lookup n).getD 0) := by
  induction names with
  | nil => rfl
  | cons a rest ih =>
    obtain ⟨p, hp⟩ := Option.isSome_iff_exists.mp (h a (by simp))
    have hrest := ih fun n hn => h n (by simp [hn])
    simp [getProxies, hp, hrest]

theorem getProxies_first_missing (m : List (String × Proxy)) (pre : List String)
    (n : String) (post : List String)
    (hpre : ∀ x ∈ pre, (m.lookup x).isSome) (hn : m.lookup n = none) :
    getProxies m (pre ++ n :: post) = .error (.notFound n) := by
  induction pre with
  | nil => simp [getProxies, hn]
  | cons a rest ih =>
    obtain ⟨p, hp⟩ := Option.isSome_iff_exists.mp (hpre a (by simp))
    have hrest := ih fun x hx => hpre x (by simp [hx])
    simp [getProxies, hp, hrest]

theorem newHealthCheck_disabled (ps : List Proxy) (g : GroupCommonOption)
    (h : g.typ = "select" ∨ g.typ = "relay") :
    newHealthCheck ps g = .ok ⟨ps, "", 0, true⟩ := by
  simp [newHealthCheck, h]

theorem newHealthCheck_missing (ps : List Proxy) (g : GroupCommonOption)
    (h1 : ¬(g.typ = "select" ∨ g.typ = "relay"))
    (h2 : g.url = "" ∨ g.interval = 0) :
    newHealthCheck ps g = .error .missHealthCheck := by
  simp [newHealthCheck, h1, h2]

theorem getProviders_all_set (m : List (String × ProxyProvider)) (g : GroupCommonOption)
    (f : Option String) (hc : HealthCheck) (names : List String)
    (hhc : newHealthCheck [] g = .ok hc)
    (h : ∀ n ∈ names, ∃ pn, m.lookup n = some (.setProvider pn)) :
    getProviders m g f names =
      (.ok (names.map (fpOf m g f hc)),
       names.map fun n => ((m.lookup n).getD (.setProvider n), fpOf m g f hc n)) := by
  induction names with
  | nil => rfl
  | cons a rest ih =>
    obtain ⟨pn, hpn⟩ := h a (by simp)
    have hrest := ih fun n hn => h n (by simp [hn])
    simp [getProviders, hpn, hhc, hrest, fpOf, ProxyProvider.isSet]

theorem getProviders_incompatible (m : List (String × ProxyProvider)) (g : GroupCommonOption)
    (f : Option String) (hc : HealthCheck) (pre : List String) (n : String)
    (post : List String) (p : ProxyProvider)
    (hhc : newHealthCheck [] g = .ok hc)
    (hpre : ∀ x ∈ pre, ∃ pn, m.lookup x = some (.setProvider pn))
    (hn : m.lookup n = some p) (hset : p.isSet = false) :
    (getProviders m g f (pre ++ n :: post)).1 = .error (.incompatibleUse n) := by
  induction pre with
  | nil => simp [getProviders, hn, hset]
  | cons a rest ih =>
    obtain ⟨pn, hpn⟩ := hpre a (by simp)
    have hrest := ih fun x hx => hpre x (by simp [hx])
    simp only [List.cons_append, getProviders, hpn, hhc, ProxyProvider.isSet, if_true]
    cases hsp : getProviders m g f (rest ++ n :: post) with
    | mk r1 r2 =>
      rw [hsp] at hrest
      cases r1 with
      | error e =>
        simp only [Except.error.injEq] at hrest
        simp [hrest]
      | ok ps => simp at hrest

theorem getProviders_pnames (m : List (String × ProxyProvider)) (g : GroupCommonOption)
    (f : Option String) (names : List String) (l : List ProxyProvider)
    (regs : List (ProxyProvider × ProxyProvider))
    (h : getProviders m g f names = (.ok l, regs)) :
    l.map ProxyProvider.pname = names.map fun n => n ++ "-in-" ++ g.name := by
  induction names generalizing l regs with
  | nil =>
    simp [getProviders] at h
    simp [h.1]
  | cons a rest ih =>
    cases hm : m.lookup a with
    | none => simp [getProviders, hm] at h
    | some p =>
      by_cases hs : p.isSet
      · cases hhc : newHealthCheck [] g with
        | error e => simp [getProviders, hm, hs, hhc] at h
        | ok hc =>
          simp only [getProviders, hm, hs, hhc, if_true] at h
          cases hr : getProviders m g f rest with
          | mk r1 r2 =>
            rw [hr] at h
            cases r1 with
            | error e => simp at h
            | ok ps =>
              simp only [Prod.mk.injEq, Except.ok.injEq] at h
              obtain ⟨hl, -⟩ := h
              subst hl
              simp [ProxyProvider.pname, ih ps r2 hr]
      · simp only [getProviders, hm, hs] at h
        simp at h

theorem inlineStep_ok_cases (pm : List (String × Proxy))
    (prov : List (String × ProxyProvider)) (g : GroupCommonOption)
    (l : List ProxyProvider) (m1 : List (String × ProxyProvider))
    (h : inlineStep pm prov g = .ok (l, m1)) :
    (g.proxies = [] ∧ l = [] ∧ m1 = prov) ∨
    (∃ ps hc, g.proxies ≠ [] ∧ getProxies pm g.proxies = .ok ps ∧
      prov.lookup g.name = none ∧ newHealthCheck ps g = .ok hc ∧
      l = [.compatible g.name ps hc] ∧
      m1 = (g.name, ProxyProvider.compatible g.name ps hc) :: prov) := by
  by_cases hp : g.proxies = []
  · left
    simp only [inlineStep, hp, if_true] at h
    simp only [Except.ok.injEq, Prod.mk.injEq] at h
    exact ⟨hp, h.1.symm, h.2.symm⟩
  · right
    cases hps : getProxies pm g.proxies with
    | error e => simp [inlineStep, hp, hps] at h
    | ok ps =>
      cases hlk : prov.lookup g.name with
      | some v => simp [inlineStep, hp, hps, hlk] at h
      | none =>
        cases hhc : newHealthCheck ps g with
        | error e => simp [inlineStep, hp, hps, hlk, hhc] at h
        | ok hc =>
          simp only [inlineStep, hp, if_false, hps, hlk, hhc, NewCompatibleProvider,
            Except.ok.injEq, Prod.mk.injEq] at h
          exact ⟨ps, hc, hp, rfl, rfl, hhc, h.1.symm, h.2.symm⟩

theorem inlineStep_build (pm : List (String × Proxy))
    (prov : List (String × ProxyProvider)) (g : GroupCommonOption)
    (hp : g.proxies ≠ [])
    (hres : getProxies pm g.proxies = .ok (g.proxies.map fun n => (pm.lookup n).getD 0))
    (hdup : prov.lookup g.name = none) (hc : HealthCheck)
    (hhc : newHealthCheck (g.proxies.map fun n => (pm.lookup n).getD 0) g = .ok hc) :
    inlineStep pm prov g =
      .ok ([ProxyProvider.compatible g.name (g.proxies.map fun n => (pm.lookup n).getD 0) hc],
        (g.name, ProxyProvider.compatible g.name
          (g.proxies.map fun n => (pm.lookup n).getD 0) hc) :: prov) := by
  simp [inlineStep, hp, hres, hdup, hhc, NewCompatibleProvider]

theorem dispatch_providers (g : GroupCommonOption) (s : String)
    (ps : List ProxyProvider) (a : ProxyGroupAdapter)
    (h : dispatch g s ps = .ok a) : a.providers = ps := by
  unfold dispatch at h
  split at h
  · cases h; rfl
  · split at h
    · cases h; rfl
    · split at h
      · cases h; rfl
      · split at h
        · unfold NewLoadBalance at h
          split at h
          · cases h; rfl
          · cases h
        · split at h
          · cases h; rfl
          · cases h

theorem dispatch_err_cases (g : GroupCommonOption) (s : String)
    (ps : List ProxyProvider) (e : GroupError)
    (h : dispatch g s ps = .error e) :
    e = .unsupported g.name g.typ ∨ ∃ str, e = .strategyNotSupported str := by
  unfold dispatch at h
  split at h
  · cases h
  · split at h
    · cases h
    · split at h
      · cases h
      · split at h
        · unfold NewLoadBalance at h
          split at h
          · cases h
          · cases h; exact Or.inr ⟨s, rfl⟩
        · split at h
          · cases h
          · cases h; exact Or.inl rfl

theorem compileFilter_err_cases (rc : String → Option String) (g : GroupCommonOption)
    (e : GroupError) (h : compileFilter rc g = .error e) :
    e = .withName g.name (.invalidFilter g.filter) := by
  unfold compileFilter at h
  split at h
  · cases h
  · split at h
    · cases h; rfl
    · cases h

theorem parse_after_inline (rc : String → Option String) (g : GroupCommonOption)
    (s : String) (pm : List (String × Proxy)) (prov : List (String × ProxyProvider))
    (f : Option String) (l0 : List ProxyProvider) (m1 : List (String × ProxyProvider))
    (h1 : ¬(g.typ = "" ∨ g.name = ""))
    (hcf : compileFilter rc g = .ok f)
    (h2 : ¬(g.proxies = [] ∧ g.use = []))
    (hin : inlineStep pm prov g = .ok (l0, m1)) :
    (ParseProxyGroup rc (some g) s pm prov).2.providersMap = m1 := by
  simp only [ParseProxyGroup, h1, if_false, hcf, h2, hin]
  cases hu : useStep m1 g f with
  | mk r1 regs =>
    cases r1 with
    | error e => simp
    | ok list =>
      cases hd : dispatch g s (if g.typ = "fallback" then list ++ l0 else l0 ++ list) with
      | error e => simp [hd]
      | ok a => simp [hd]

theorem parse_state_shape (rc : String → Option String) (d : Option GroupCommonOption)
    (s : String) (pm : List (String × Proxy)) (prov : List (String × ProxyProvider)) :
    (ParseProxyGroup rc d s pm prov).2.providersMap = prov ∨
    ∃ g ps hc, d = some g ∧ g.proxies ≠ [] ∧ prov.lookup g.name = none ∧
      (ParseProxyGroup rc d s pm prov).2.providersMap
        = (g.name, ProxyProvider.compatible g.name ps hc) :: prov := by
  cases d with
  | none => left; rfl
  | some g =>
    by_cases h1 : g.typ = "" ∨ g.name = ""
    · left; simp [ParseProxyGroup, h1]
    · cases hcf : compileFilter rc g with
      | error e => left; simp [ParseProxyGroup, h1, hcf]
      | ok f =>
        by_cases h2 : g.proxies = [] ∧ g.use = []
        · left; simp [ParseProxyGroup, h1, hcf, h2]
        · cases hin : inlineStep pm prov g with
          | error e => left; simp [ParseProxyGroup, h1, hcf, h2, hin]
          | ok pr =>
            obtain ⟨l0, m1⟩ := pr
            have hmap := parse_after_inline rc g s pm prov f l0 m1 h1 hcf h2 hin
            rcases inlineStep_ok_cases pm prov g l0 m1 hin with
              ⟨hp, hl, hm⟩ | ⟨ps, hc, hp, hres, hlk, hhc, hl, hm⟩
            · left; rw [hmap, hm]
            · right
              exact ⟨g, ps, hc, rfl, hp, hlk, by rw [hmap, hm]⟩

theorem parse_err_cases (rc : String → Option String) (g : GroupCommonOption)
    (s : String) (pm : List (String × Proxy)) (prov : List (String × ProxyProvider))
    (e : GroupError)
    (h : (ParseProxyGroup rc (some g) s pm prov).1 = .error e) :
    e = .format ∨ (∃ e2, e = .withName g.name e2) ∨
    e = .unsupported g.name g.typ ∨ ∃ str, e = .strategyNotSupported str := by
  by_cases h1 : g.typ = "" ∨ g.name = ""
  · simp only [ParseProxyGroup, h1, if_true] at h
    simp at h
    exact Or.inl h.symm
  · cases hcf : compileFilter rc g with
    | error e2 =>
      simp only [ParseProxyGroup, h1, if_false, hcf] at h
      simp at h
      exact Or.inr (Or.inl ⟨.invalidFilter g.filter,
        by rw [← h, compileFilter_err_cases rc g e2 hcf]⟩)
    | ok f =>
      by_cases h2 : g.proxies = [] ∧ g.use = []
      · simp only [ParseProxyGroup, h1, if_false, hcf, h2, if_true] at h
        simp at h
        exact Or.inr (Or.inl ⟨.missProxy, h.symm⟩)
      · cases hin : inlineStep pm prov g with
        | error e2 =>
          simp only [ParseProxyGroup, h1, if_false, hcf, h2, hin] at h
          simp at h
          exact Or.inr (Or.inl ⟨e2, h.symm⟩)
        | ok pr =>
          obtain ⟨l0, m1⟩ := pr
          simp only [ParseProxyGroup, h1, if_false, hcf, h2, hin] at h
          cases hu : useStep m1 g f with
          | mk r1 regs =>
            rw [hu] at h
            cases r1 with
            | error e2 =>
              simp at h
              exact Or.inr (Or.inl ⟨e2, h.symm⟩)
            | ok list =>
              cases hd : dispatch g s (if g.typ = "fallback" then list ++ l0 else l0 ++ list) with
              | error e2 =>
                simp [hd] at h
                subst h
                rcases dispatch_err_cases g s _ e2 hd with h3 | ⟨str, h3⟩
                · exact Or.inr (Or.inr (Or.inl h3))
                · exact Or.inr (Or.inr (Or.inr ⟨str, h3⟩))
              | ok a =>
                simp [hd] at h

theorem parse_ok_inversion (rc : String → Option String) (g : GroupCommonOption)
    (s : String) (pm : List (String × Proxy)) (prov : List (String × ProxyProvider))
    (a : ProxyGroupAdapter) (st : PState)
    (h : ParseProxyGroup rc (some g) s pm prov = (.ok a, st)) :
    ∃ f l0 m1 list regs,
      ¬(g.typ = "" ∨ g.name = "") ∧
      compileFilter rc g = .ok f ∧
      ¬(g.proxies = [] ∧ g.use = []) ∧
      inlineStep pm prov g = .ok (l0, m1) ∧
      useStep m1 g f = (.ok list, regs) ∧
      dispatch g s (if g.typ = "fallback" then list ++ l0 else l0 ++ list) = .ok a ∧
      st = ⟨m1, regs⟩ := by
  by_cases h1 : g.typ = "" ∨ g.name = ""
  · simp [ParseProxyGroup, h1] at h
  · cases hcf : compileFilter rc g with
    | error e => simp [ParseProxyGroup, h1, hcf] at h
    | ok f =>
      by_cases h2 : g.proxies = [] ∧ g.use = []
      · simp [ParseProxyGroup, h1, hcf, h2] at h
      · cases hin : inlineStep pm prov g with
        | error e => simp [ParseProxyGroup, h1, hcf, h2, hin] at h
        | ok pr =>
          obtain ⟨l0, m1⟩ := pr
          simp only [ParseProxyGroup, h1, if_false, hcf, h2, hin] at h
          cases hu : useStep m1 g f with
          | mk r1 regs =>
            rw [hu] at h
            cases r1 with
            | error e => simp at h
            | ok list =>
              cases hd : dispatch g s (if g.typ = "fallback" then list ++ l0 else l0 ++ list) with
              | error e =>
                simp [hd] at h
              | ok a2 =>
                simp only [hd, Prod.mk.injEq, Except.ok.injEq] at h
                obtain ⟨ha, hst⟩ := h
                exact ⟨f, l0, m1, list, regs, h1, rfl, h2, rfl, hu, by rw [ha] at hd; exact hd,
                  hst.symm⟩

theorem useStep_ok_cases (m1 : List (String × ProxyProvider)) (g : GroupCommonOption)
    (f : Option String) (list : List ProxyProvider)
    (regs : List (ProxyProvider × ProxyProvider))
    (h : useStep m1 g f = (.ok list, regs)) :
    (g.use = [] ∧ list = [] ∧ regs = []) ∨
    getProviders m1 g f g.use = (.ok list, regs) := by
  by_cases hu : g.use = []
  · left
    simp only [useStep, hu, if_true] at h
    simp only [Prod.mk.injEq, Except.ok.injEq] at h
    exact ⟨hu, h.1.symm, h.2.symm⟩
  · right
    simp only [useStep, hu, if_false] at h
    exact h

theorem compileFilter_ok (rc : String → Option String) (g : GroupCommonOption)
    (hfilter : g.filter = "" ∨ (rc g.filter).isSome) :
    ∃ f, compileFilter rc g = .ok f := by
  by_cases hfe : g.filter = ""
  · exact ⟨none, by simp [compileFilter, hfe]⟩
  · rcases hfilter with hf | hf
    · exact absurd hf hfe
    · obtain ⟨r, hr⟩ := Option.isSome_iff_exists.mp hf
      exact ⟨some r, by simp [compileFilter, hfe, hr]⟩

theorem parse_build (rc : String → Option String) (g : GroupCommonOption) (s : String)
    (pm : List (String × Proxy)) (prov : List (String × ProxyProvider))
    (f : Option String) (l0 list : List ProxyProvider)
    (m1 : List (String × ProxyProvider)) (regs : List (ProxyProvider × ProxyProvider))
    (a : ProxyGroupAdapter)
    (h1 : ¬(g.typ = "" ∨ g.name = ""))
    (hcf : compileFilter rc g = .ok f)
    (h2 : ¬(g.proxies = [] ∧ g.use = []))
    (hin : inlineStep pm prov g = .ok (l0, m1))
    (hus : useStep m1 g f = (.ok list, regs))
    (hd : dispatch g s (if g.typ = "fallback" then list ++ l0 else l0 ++ list) = .ok a) :
    ParseProxyGroup rc (some g) s pm prov = (.ok a, ⟨m1, regs⟩) := by
  simp [ParseProxyGroup, h1, hcf, h2, hin, hus, hd]

theorem dispatch_select (g : GroupCommonOption) (s : String) (ps : List ProxyProvider)
    (h : g.typ = "select") : dispatch g s ps = .ok (.selector g ps) := by
  simp [dispatch, h]

theorem dispatch_relay (g : GroupCommonOption) (s : String) (ps : List ProxyProvider)
    (h : g.typ = "relay") : dispatch g s ps = .ok (.relay g ps) := by
  simp [dispatch, h]

theorem hcs_fpOf_set (m : List (String × ProxyProvider)) (g : GroupCommonOption)
    (f : Option String) (hc : HealthCheck) (n : String) (pn : String)
    (hl : m.lookup n = some (.setProvider pn)) :
    (fpOf m g f hc n).hcs = [hc] := by
  simp [fpOf, hl, ProxyProvider.hcs]

/-! ## The claims -/

/-- C1 (counterexample): a group with inline proxies and an unresolvable
`use` reference fails, yet the call has already registered (and keeps) the
synthetic provider under the group's name: the registry is not as it was
before the call. -/
theorem C1_counterexample :
    (ParseProxyGroup some
        (some ⟨"g", "select", ["A"], ["X"], "", 0, true, false, false, ""⟩)
        "" [("A", 0)] []).1
      = .error (.withName "g" (.notFound "X")) ∧
    (ParseProxyGroup some
        (some ⟨"g", "select", ["A"], ["X"], "", 0, true, false, false, ""⟩)
        "" [("A", 0)] []).2.providersMap
      = [("g", ProxyProvider.compatible "g" [0] ⟨[0], "", 0, true⟩)] ∧
    [("g", ProxyProvider.compatible "g" [0] ⟨[0], "", 0, true⟩)]
      ≠ ([] : List (String × ProxyProvider)) :=
  ⟨rfl, rfl, by decide⟩

/-- C1 (amended): when `ParseProxyGroup` returns an error, the
ProviderRegistry is either exactly as it was before the call, or — when the
error arose after the inline-proxies step had already registered the
synthetic provider — differs from it exactly by that one new entry under the
group's name (absent before); no pre-existing entry is removed or
overwritten. -/
theorem C1_registry_after_error (rc : String → Option String)
    (d : Option GroupCommonOption) (s : String) (pm : List (String × Proxy))
    (prov : List (String × ProxyProvider)) (e : GroupError)
    (h : (ParseProxyGroup rc d s pm prov).1 = .error e) :
    (ParseProxyGroup rc d s pm prov).2.providersMap = prov ∨
    ∃ g ps hc, d = some g ∧ g.proxies ≠ [] ∧ prov.lookup g.name = none ∧
      (ParseProxyGroup rc d s pm prov).2.providersMap
        = (g.name, ProxyProvider.compatible g.name ps hc) :: prov :=
  parse_state_shape rc d s pm prov

theorem C1_witness :
    (ParseProxyGroup some none "" [] [("p", ProxyProvider.setProvider "p")]).1
      = .error .format ∧
    ((ParseProxyGroup some none "" [] [("p", ProxyProvider.setProvider "p")]).2.providersMap
        = [("p", ProxyProvider.setProvider "p")] ∨
      ∃ g ps hc, (none : Option GroupCommonOption) = some g ∧ g.proxies ≠ [] ∧
        [("p", ProxyProvider.setProvider "p")].lookup g.name = none ∧
        (ParseProxyGroup some none "" [] [("p", ProxyProvider.setProvider "p")]).2.providersMap
          = (g.name, ProxyProvider.compatible g.name ps hc)
              :: [("p", ProxyProvider.setProvider "p")]) :=
  ⟨rfl, C1_registry_after_error some none "" [] [("p", ProxyProvider.setProvider "p")]
    .format rfl⟩

/-- C2 (counterexample): the format error produced for an empty `type` is
returned bare, without the group name prefixed. -/
theorem C2_counterexample :
    (ParseProxyGroup some
        (some ⟨"g", "", ["A"], [], "", 0, true, false, false, ""⟩) "" [] []).1
      = .error .format ∧
    hasNamePfx "g" .format = false ∧
    errMsg .format = "format error" :=
  ⟨rfl, rfl, rfl⟩

/-- C2 (amended): every error returned by `ParseProxyGroup` other than the
bare format error (decode failure or empty `name`/`type`) and the unwrapped
load-balance constructor error carries the group name as a prefix of its
message. -/
theorem C2_errors_prefixed (rc : String → Option String)
    (d : Option GroupCommonOption) (s : String) (pm : List (String × Proxy))
    (prov : List (String × ProxyProvider)) (g : GroupCommonOption) (e : GroupError)
    (hd : d = some g)
    (h : (ParseProxyGroup rc d s pm prov).1 = .error e)
    (hf : e ≠ .format)
    (hs : ∀ str, e ≠ .strategyNotSupported str) :
    hasNamePfx g.name e = true ∧ ∃ rest, errMsg e = g.name ++ rest := by
  subst hd
  rcases parse_err_cases rc g s pm prov e h with h1 | ⟨e2, h1⟩ | h1 | ⟨str, h1⟩
  · exact absurd h1 hf
  · subst h1
    refine ⟨by simp [hasNamePfx], ⟨": " ++ errMsg e2, ?_⟩⟩
    show g.name ++ ": " ++ errMsg e2 = g.name ++ (": " ++ errMsg e2)
    rw [String.append_assoc]
  · subst h1
    refine ⟨by simp [hasNamePfx], ⟨" unsupported type: " ++ g.typ, ?_⟩⟩
    show g.name ++ " unsupported type: " ++ g.typ = g.name ++ (" unsupported type: " ++ g.typ)
    rw [String.append_assoc]
  · exact absurd h1 (hs str)

theorem C2_witness :
    (ParseProxyGroup some
        (some ⟨"g", "select", [], [], "", 0, true, false, false, ""⟩) "" [] []).1
      = .error (.withName "g" .missProxy) ∧
    (hasNamePfx "g" (.withName "g" .missProxy) = true ∧
      ∃ rest, errMsg (.withName "g" .missProxy) = "g" ++ rest) :=
  ⟨rfl, C2_errors_prefixed some
    (some ⟨"g", "select", [], [], "", 0, true, false, false, ""⟩) "" [] []
    ⟨"g", "select", [], [], "", 0, true, false, false, ""⟩
    (.withName "g" .missProxy) rfl rfl (by decide) (fun str h => by cases h)⟩

/-- C9: for a configuration whose `proxies` and `use` both decode to empty
lists (decoding itself succeeded with non-empty name and type, and the
filter pattern, if any, compiles), resolution fails with the
``use` or `proxies` missing` error wrapped with the group name, and the
ProviderRegistry is returned untouched with no dependent registrations. -/
theorem C9_missing_both (rc : String → Option String) (s : String)
    (pm : List (String × Proxy)) (prov : List (String × ProxyProvider))
    (g : GroupCommonOption)
    (hname : g.name ≠ "") (htyp : g.typ ≠ "")
    (hfilter : g.filter = "" ∨ (rc g.filter).isSome)
    (hp : g.proxies = []) (hu : g.use = []) :
    ParseProxyGroup rc (some g) s pm prov
      = (.error (.withName g.name .missProxy), ⟨prov, []⟩) := by
  have h1 : ¬(g.typ = "" ∨ g.name = "") := by simp [hname, htyp]
  obtain ⟨f, hcf⟩ := compileFilter_ok rc g hfilter
  simp [ParseProxyGroup, h1, hcf, hp, hu]

theorem C9_witness :
    (⟨"g", "url-test", [], [], "", 0, true, false, false, ""⟩ :
        GroupCommonOption).name ≠ "" ∧
    ParseProxyGroup some
        (some ⟨"g", "url-test", [], [], "", 0, true, false, false, ""⟩) ""
        [] [("p", ProxyProvider.setProvider "p")]
      = (.error (.withName "g" .missProxy),
         ⟨[("p", ProxyProvider.setProvider "p")], []⟩) :=
  ⟨by decide, C9_missing_both some "" [] [("p", ProxyProvider.setProvider "p")]
    ⟨"g", "url-test", [], [], "", 0, true, false, false, ""⟩
    (by decide) (by decide) (Or.inl rfl) rfl rfl⟩

/-- C10: `ParseProxyGroup` never removes or overwrites an existing registry
entry — every pre-call key/value pair is still observable afterwards; a
successful call with inline proxies adds exactly the one synthetic entry
under the (previously absent) group name, and a successful call of a
`use`-only group leaves the registry exactly as it was. -/
theorem C10_registry_frame (rc : String → Option String)
    (d : Option GroupCommonOption) (s : String) (pm : List (String × Proxy))
    (prov : List (String × ProxyProvider)) :
    (∀ k v, prov.lookup k = some v →
      (ParseProxyGroup rc d s pm prov).2.providersMap.lookup k = some v) ∧
    (∀ g a st, d = some g → ParseProxyGroup rc d s pm prov = (.ok a, st) →
      (g.proxies ≠ [] → ∃ ps hc, prov.lookup g.name = none ∧
        st.providersMap = (g.name, ProxyProvider.compatible g.name ps hc) :: prov) ∧
      (g.proxies = [] → st.providersMap = prov)) := by
  constructor
  · intro k v hk
    rcases parse_state_shape rc d s pm prov with hsh | ⟨g, ps, hc, hd, hp, hlk, hsh⟩
    · rw [hsh]; exact hk
    · rw [hsh]
      by_cases hkg : k = g.name
      · subst hkg
        rw [hlk] at hk
        cases hk
      · rw [Lookup.cons_ne _ _ hkg]
        exact hk
  · intro g a st hd h
    subst hd
    obtain ⟨f, l0, m1, list, regs, h1, hcf, h2, hin, hu, hdis, hst⟩ :=
      parse_ok_inversion rc g s pm prov a st h
    rcases inlineStep_ok_cases pm prov g l0 m1 hin with
      ⟨hp, hl, hm⟩ | ⟨ps, hc, hp, hres, hlk, hhc, hl, hm⟩
    · refine ⟨fun hcon => absurd hp hcon, fun _ => ?_⟩
      rw [hst]
      exact hm
    · refine ⟨fun _ => ⟨ps, hc, hlk, ?_⟩, fun hcon => absurd hcon hp⟩
      rw [hst]
      exact hm

theorem C10_witness :
    ([("p", ProxyProvider.setProvider "p")] :
        List (String × ProxyProvider)).lookup "p" = some (ProxyProvider.setProvider "p") ∧
    (ParseProxyGroup some
        (some ⟨"g", "select", ["A"], [], "", 0, true, false, false, ""⟩) ""
        [("A", 7)] [("p", ProxyProvider.setProvider "p")]).2.providersMap.lookup "p"
      = some (ProxyProvider.setProvider "p") :=
  ⟨rfl, (C10_registry_frame some
    (some ⟨"g", "select", ["A"], [], "", 0, true, false, false, ""⟩) ""
    [("A", 7)] [("p", ProxyProvider.setProvider "p")]).1 "p"
    (ProxyProvider.setProvider "p") rfl⟩

/-- C3: in a successful resolution that lists both inline `proxies` and
`use` references, a `fallback` group places every derived provider (in `use`
order, named `"<source>-in-<group>"`) before the synthetic inline provider
(named after the group), while every other strategy kind places the
synthetic provider first, followed by the derived providers in `use`
order. -/
theorem C3_fallback_order (rc : String → Option String) (s : String)
    (pm : List (String × Proxy)) (prov : List (String × ProxyProvider))
    (g : GroupCommonOption) (a : ProxyGroupAdapter) (st : PState)
    (h : ParseProxyGroup rc (some g) s pm prov = (.ok a, st))
    (hp : g.proxies ≠ []) (hu : g.use ≠ []) :
    (g.typ = "fallback" →
      a.providers.map ProxyProvider.pname
        = g.use.map (fun n => n ++ "-in-" ++ g.name) ++ [g.name]) ∧
    (g.typ ≠ "fallback" →
      a.providers.map ProxyProvider.pname
        = g.name :: g.use.map (fun n => n ++ "-in-" ++ g.name)) := by
  obtain ⟨f, l0, m1, list, regs, h1, hcf, h2, hin, huse, hdis, hst⟩ :=
    parse_ok_inversion rc g s pm prov a st h
  rcases inlineStep_ok_cases pm prov g l0 m1 hin with
    ⟨hp0, -, -⟩ | ⟨ps, hc, -, -, -, -, hl, -⟩
  · exact absurd hp0 hp
  · rcases useStep_ok_cases m1 g f list regs huse with ⟨hu0, -, -⟩ | hgp
    · exact absurd hu0 hu
    · have hnames := getProviders_pnames m1 g f g.use list regs hgp
      have hap := dispatch_providers g s _ a hdis
      constructor
      · intro ht
        rw [hap, if_pos ht, List.map_append, hnames, hl]
        simp [ProxyProvider.pname]
      · intro ht
        rw [hap, if_neg ht, hl]
        simp [ProxyProvider.pname, hnames]

theorem C3_witness :
    ParseProxyGroup some
        (some ⟨"g", "fallback", ["A"], ["P"], "u", 5, true, false, false, ""⟩)
        "" [("A", 0)] [("P", ProxyProvider.setProvider "P")]
      = (.ok (.fallback ⟨"g", "fallback", ["A"], ["P"], "u", 5, true, false, false, ""⟩
          [ProxyProvider.filterProvider "P-in-g" (.setProvider "P") ⟨[], "u", 5, true⟩ none,
           ProxyProvider.compatible "g" [0] ⟨[0], "u", 5, true⟩]),
         ⟨[("g", ProxyProvider.compatible "g" [0] ⟨[0], "u", 5, true⟩),
           ("P", ProxyProvider.setProvider "P")],
          [(ProxyProvider.setProvider "P",
            ProxyProvider.filterProvider "P-in-g" (.setProvider "P") ⟨[], "u", 5, true⟩ none)]⟩) ∧
    (ProxyGroupAdapter.fallback
        ⟨"g", "fallback", ["A"], ["P"], "u", 5, true, false, false, ""⟩
        [ProxyProvider.filterProvider "P-in-g" (.setProvider "P") ⟨[], "u", 5, true⟩ none,
         ProxyProvider.compatible "g" [0] ⟨[0], "u", 5, true⟩]).providers.map
        ProxyProvider.pname
      = ["P-in-g", "g"] := by
  constructor
  · rfl
  · have h := C3_fallback_order some ""
      [("A", 0)] [("P", ProxyProvider.setProvider "P")]
      ⟨"g", "fallback", ["A"], ["P"], "u", 5, true, false, false, ""⟩
      (.fallback ⟨"g", "fallback", ["A"], ["P"], "u", 5, true, false, false, ""⟩
        [ProxyProvider.filterProvider "P-in-g" (.setProvider "P") ⟨[], "u", 5, true⟩ none,
         ProxyProvider.compatible "g" [0] ⟨[0], "u", 5, true⟩])
      ⟨[("g", ProxyProvider.compatible "g" [0] ⟨[0], "u", 5, true⟩),
        ("P", ProxyProvider.setProvider "P")],
       [(ProxyProvider.setProvider "P",
         ProxyProvider.filterProvider "P-in-g" (.setProvider "P") ⟨[], "u", 5, true⟩ none)]⟩
      (by rfl) (by decide) (by decide)
    exact (h.1 rfl).trans (by rfl)

/-- C4: a `select` or `relay` group resolves successfully even with empty
`url` and zero `interval` (provided its references resolve), and every
health-check policy reachable from the resulting adapter's providers is the
disabled policy: empty URL, zero interval, laziness true — whatever `url`,
`interval` and `lazy` were configured. -/
theorem C4_select_relay_disabled (rc : String → Option String) (s : String)
    (pm : List (String × Proxy)) (prov : List (String × ProxyProvider))
    (g : GroupCommonOption)
    (htyp : g.typ = "select" ∨ g.typ = "relay")
    (hname : g.name ≠ "")
    (hfilter : g.filter = "" ∨ (rc g.filter).isSome)
    (hne : ¬(g.proxies = [] ∧ g.use = []))
    (hres : ∀ n ∈ g.proxies, (pm.lookup n).isSome)
    (hdup : prov.lookup g.name = none)
    (huse : ∀ n ∈ g.use, n ≠ g.name ∧ ∃ pn, prov.lookup n = some (.setProvider pn)) :
    ∃ a st, ParseProxyGroup rc (some g) s pm prov = (.ok a, st) ∧
      ∀ p ∈ a.providers, ∀ hc ∈ p.hcs, disabledHC hc := by
  have htne : g.typ ≠ "" := by rcases htyp with h | h <;> simp [h]
  have h1 : ¬(g.typ = "" ∨ g.name = "") := by simp [htne, hname]
  have hnf : g.typ ≠ "fallback" := by rcases htyp with h | h <;> simp [h]
  obtain ⟨f, hcf⟩ := compileFilter_ok rc g hfilter
  have hhc0 : newHealthCheck [] g = .ok ⟨[], "", 0, true⟩ := newHealthCheck_disabled [] g htyp
  -- the inline step
  by_cases hp : g.proxies = []
  · -- use-only group
    have hu : g.use ≠ [] := fun hcon => hne ⟨hp, hcon⟩
    have hin : inlineStep pm prov g = .ok ([], prov) := by simp [inlineStep, hp]
    have hgp := getProviders_all_set prov g f ⟨[], "", 0, true⟩ g.use hhc0
      (fun n hn => (huse n hn).2)
    have hus : useStep prov g f
        = (.ok (g.use.map (fpOf prov g f ⟨[], "", 0, true⟩)),
           g.use.map fun n =>
             ((prov.lookup n).getD (.setProvider n), fpOf prov g f ⟨[], "", 0, true⟩ n)) := by
      simp [useStep, hu, hgp]
    obtain ⟨a, hd⟩ : ∃ a, dispatch g s
        ([] ++ g.use.map (fpOf prov g f ⟨[], "", 0, true⟩)) = .ok a := by
      rcases htyp with h | h
      · exact ⟨_, dispatch_select g s _ h⟩
      · exact ⟨_, dispatch_relay g s _ h⟩
    refine ⟨a, _, parse_build rc g s pm prov f [] _ prov _ a h1 hcf hne hin hus
      (by rw [if_neg hnf]; exact hd), ?_⟩
    have hap := dispatch_providers g s _ a hd
    intro p hpmem hc hcmem
    rw [hap] at hpmem
    simp only [List.nil_append, List.mem_map] at hpmem
    obtain ⟨n, hn, hfp⟩ := hpmem
    obtain ⟨pn, hpn⟩ := (huse n hn).2
    rw [← hfp, hcs_fpOf_set prov g f _ n pn hpn] at hcmem
    simp at hcmem
    subst hcmem
    exact ⟨rfl, rfl, rfl⟩
  · -- inline proxies present
    have hgx := getProxies_all_found pm g.proxies hres
    have hhcp : newHealthCheck (g.proxies.map fun n => (pm.lookup n).getD 0) g
        = .ok ⟨g.proxies.map fun n => (pm.lookup n).getD 0, "", 0, true⟩ :=
      newHealthCheck_disabled _ g htyp
    have hin := inlineStep_build pm prov g hp hgx hdup _ hhcp
    set pd := ProxyProvider.compatible g.name
      (g.proxies.map fun n => (pm.lookup n).getD 0)
      ⟨g.proxies.map fun n => (pm.lookup n).getD 0, "", 0, true⟩ with hpd
    set m1 := (g.name, pd) :: prov with hm1
    have hlk1 : ∀ n ∈ g.use, ∃ pn, m1.lookup n = some (.setProvider pn) := by
      intro n hn
      obtain ⟨pn, hpn⟩ := (huse n hn).2
      refine ⟨pn, ?_⟩
      rw [hm1, Lookup.cons_ne _ _ (huse n hn).1]
      exact hpn
    have hgp := getProviders_all_set m1 g f ⟨[], "", 0, true⟩ g.use hhc0 hlk1
    by_cases hu : g.use = []
    · have hus : useStep m1 g f = (.ok [], []) := by simp [useStep, hu]
      obtain ⟨a, hd⟩ : ∃ a, dispatch g s ([pd] ++ []) = .ok a := by
        rcases htyp with h | h
        · exact ⟨.selector g ([pd] ++ []), dispatch_select g s _ h⟩
        · exact ⟨.relay g ([pd] ++ []), dispatch_relay g s _ h⟩
      refine ⟨a, _, parse_build rc g s pm prov f [pd] _ m1 _ a h1 hcf hne hin hus
        (by rw [if_neg hnf]; exact hd), ?_⟩
      have hap := dispatch_providers g s _ a hd
      intro p hpmem hc hcmem
      rw [hap] at hpmem
      simp only [List.append_nil, List.mem_singleton] at hpmem
      subst hpmem
      rw [hpd] at hcmem
      simp [ProxyProvider.hcs] at hcmem
      subst hcmem
      exact ⟨rfl, rfl, rfl⟩
    · have hus : useStep m1 g f
          = (.ok (g.use.map (fpOf m1 g f ⟨[], "", 0, true⟩)),
             g.use.map fun n =>
               ((m1.lookup n).getD (.setProvider n), fpOf m1 g f ⟨[], "", 0, true⟩ n)) := by
        simp [useStep, hu, hgp]
      obtain ⟨a, hd⟩ : ∃ a, dispatch g s
          ([pd] ++ g.use.map (fpOf m1 g f ⟨[], "", 0, true⟩)) = .ok a := by
        rcases htyp with h | h
        · exact ⟨.selector g ([pd] ++ g.use.map (fpOf m1 g f ⟨[], "", 0, true⟩)),
            dispatch_select g s _ h⟩
        · exact ⟨.relay g ([pd] ++ g.use.map (fpOf m1 g f ⟨[], "", 0, true⟩)),
            dispatch_relay g s _ h⟩
      refine ⟨a, _, parse_build rc g s pm prov f [pd] _ m1 _ a h1 hcf hne hin hus
        (by rw [if_neg hnf]; exact hd), ?_⟩
      have hap := dispatch_providers g s _ a hd
      intro p hpmem hc hcmem
      rw [hap] at hpmem
      rcases List.mem_append.mp hpmem with hpl | hpr
      · simp only [List.mem_singleton] at hpl
        subst hpl
        rw [hpd] at hcmem
        simp [ProxyProvider.hcs] at hcmem
        subst hcmem
        exact ⟨rfl, rfl, rfl⟩
      · simp only [List.mem_map] at hpr
        obtain ⟨n, hn, hfp⟩ := hpr
        obtain ⟨pn, hpn⟩ := hlk1 n hn
        rw [← hfp, hcs_fpOf_set m1 g f _ n pn hpn] at hcmem
        simp at hcmem
        subst hcmem
        exact ⟨rfl, rfl, rfl⟩

theorem C4_witness :
    ((⟨"g", "select", ["A"], ["P"], "probe", 9, false, false, false, ""⟩ :
        GroupCommonOption).typ = "select" ∨
      (⟨"g", "select", ["A"], ["P"], "probe", 9, false, false, false, ""⟩ :
        GroupCommonOption).typ = "relay") ∧
    ∃ a st,
      ParseProxyGroup some
          (some ⟨"g", "select", ["A"], ["P"], "probe", 9, false, false, false, ""⟩)
          "" [("A", 3)] [("P", ProxyProvider.setProvider "P")]
        = (.ok a, st) ∧
      ∀ p ∈ a.providers, ∀ hc ∈ p.hcs, disabledHC hc :=
  ⟨Or.inl rfl,
   C4_select_relay_disabled some "" [("A", 3)] [("P", ProxyProvider.setProvider "P")]
     ⟨"g", "select", ["A"], ["P"], "probe", 9, false, false, false, ""⟩
     (Or.inl rfl) (by decide) (Or.inl rfl) (by decide)
     (by intro n hn; fin_cases hn <;> rfl)
     rfl
     (by intro n hn; fin_cases hn <;> exact ⟨by decide, "P", rfl⟩)⟩

/-- C5: for a group whose strategy kind is neither `select` nor `relay`,
an empty `url` or zero `interval` makes resolution fail with the
missing-health-check error (wrapped with the group name), leaving the
registry untouched — provided the error path is actually reached: either
inline proxies are listed, all resolve, and the name is not yet taken, or
there are no inline proxies and the first `use` reference resolves to a
dynamic-pool provider. -/
theorem C5_missing_healthcheck (rc : String → Option String) (s : String)
    (pm : List (String × Proxy)) (prov : List (String × ProxyProvider))
    (g : GroupCommonOption)
    (hname : g.name ≠ "") (htypne : g.typ ≠ "")
    (htyp1 : g.typ ≠ "select") (htyp2 : g.typ ≠ "relay")
    (hurl : g.url = "" ∨ g.interval = 0)
    (hfilter : g.filter = "" ∨ (rc g.filter).isSome)
    (hcase :
      (g.proxies ≠ [] ∧ (∀ n ∈ g.proxies, (pm.lookup n).isSome) ∧
        prov.lookup g.name = none) ∨
      (g.proxies = [] ∧ ∃ n rest, g.use = n :: rest ∧
        ∃ pn, prov.lookup n = some (.setProvider pn))) :
    (ParseProxyGroup rc (some g) s pm prov).1
      = .error (.withName g.name .missHealthCheck) ∧
    (ParseProxyGroup rc (some g) s pm prov).2.providersMap = prov := by
  have h1 : ¬(g.typ = "" ∨ g.name = "") := by simp [hname, htypne]
  obtain ⟨f, hcf⟩ := compileFilter_ok rc g hfilter
  have hnm : ¬(g.typ = "select" ∨ g.typ = "relay") := by simp [htyp1, htyp2]
  have hhc : ∀ ps, newHealthCheck ps g = .error .missHealthCheck :=
    fun ps => newHealthCheck_missing ps g hnm hurl
  rcases hcase with ⟨hp, hres, hdup⟩ | ⟨hp, n, rest, huse, pn, hlk⟩
  · have h2 : ¬(g.proxies = [] ∧ g.use = []) := fun hcon => hp hcon.1
    have hgx := getProxies_all_found pm g.proxies hres
    have hin : inlineStep pm prov g = .error .missHealthCheck := by
      simp [inlineStep, hp, hgx, hdup, hhc]
    constructor <;> simp [ParseProxyGroup, h1, hcf, h2, hin]
  · have h2 : ¬(g.proxies = [] ∧ g.use = []) := by simp [huse]
    have hin : inlineStep pm prov g = .ok ([], prov) := by simp [inlineStep, hp]
    have hgp : getProviders prov g f (n :: rest) = (.error .missHealthCheck, []) := by
      simp [getProviders, hlk, ProxyProvider.isSet, hhc []]
    have hus : useStep prov g f = (.error .missHealthCheck, []) := by
      simp [useStep, huse, hgp]
    constructor <;> simp [ParseProxyGroup, h1, hcf, h2, hin, hus]

theorem C5_witness :
    (⟨"g", "url-test", ["A"], [], "", 3, true, false, false, ""⟩ :
        GroupCommonOption).url = "" ∧
    (ParseProxyGroup some
        (some ⟨"g", "url-test", ["A"], [], "", 3, true, false, false, ""⟩)
        "" [("A", 0)] []).1
      = .error (.withName "g" .missHealthCheck) ∧
    (ParseProxyGroup some
        (some ⟨"g", "url-test", ["A"], [], "", 3, true, false, false, ""⟩)
        "" [("A", 0)] []).2.providersMap = [] :=
  ⟨rfl, C5_missing_healthcheck some "" [("A", 0)] []
    ⟨"g", "url-test", ["A"], [], "", 3, true, false, false, ""⟩
    (by decide) (by decide) (by decide) (by decide) (Or.inl rfl) (Or.inl rfl)
    (Or.inl ⟨by decide, by intro n hn; fin_cases hn <;> rfl, rfl⟩)⟩

/-- C6: for a group listing inline `proxies` that all resolve, a
pre-existing registry entry under the group's name makes resolution fail
with the duplicate-provider error (wrapped with the group name) and leaves
the registry and dependent registrations untouched; with no such entry, the
synthetic provider wrapping the resolved endpoints is registered under the
group's name (whatever happens afterwards). -/
theorem C6_duplicate_guard (rc : String → Option String) (s : String)
    (pm : List (String × Proxy)) (prov : List (String × ProxyProvider))
    (g : GroupCommonOption)
    (hname : g.name ≠ "") (htypne : g.typ ≠ "")
    (hfilter : g.filter = "" ∨ (rc g.filter).isSome)
    (hp : g.proxies ≠ [])
    (hres : ∀ n ∈ g.proxies, (pm.lookup n).isSome) :
    ((∃ v, prov.lookup g.name = some v) →
      ParseProxyGroup rc (some g) s pm prov
        = (.error (.withName g.name .duplicateProvider), ⟨prov, []⟩)) ∧
    (prov.lookup g.name = none →
      ∀ hc, newHealthCheck (g.proxies.map fun n => (pm.lookup n).getD 0) g = .ok hc →
        (ParseProxyGroup rc (some g) s pm prov).2.providersMap.lookup g.name
          = some (.compatible g.name
              (g.proxies.map fun n => (pm.lookup n).getD 0) hc)) := by
  have h1 : ¬(g.typ = "" ∨ g.name = "") := by simp [hname, htypne]
  obtain ⟨f, hcf⟩ := compileFilter_ok rc g hfilter
  have h2 : ¬(g.proxies = [] ∧ g.use = []) := fun hcon => hp hcon.1
  have hgx := getProxies_all_found pm g.proxies hres
  constructor
  · rintro ⟨v, hv⟩
    have hin : inlineStep pm prov g = .error .duplicateProvider := by
      simp [inlineStep, hp, hgx, hv]
    simp [ParseProxyGroup, h1, hcf, h2, hin]
  · intro hdup hc hhc
    have hin := inlineStep_build pm prov g hp hgx hdup hc hhc
    have hmap := parse_after_inline rc g s pm prov f _ _ h1 hcf h2 hin
    rw [hmap]
    exact Lookup.cons_self _ _ _

theorem C6_witness :
    (∃ v, ([("g", ProxyProvider.setProvider "g")] :
        List (String × ProxyProvider)).lookup "g" = some v) ∧
    ParseProxyGroup some
        (some ⟨"g", "select", ["A"], [], "", 0, true, false, false, ""⟩)
        "" [("A", 0)] [("g", ProxyProvider.setProvider "g")]
      = (.error (.withName "g" .duplicateProvider),
         ⟨[("g", ProxyProvider.setProvider "g")], []⟩) :=
  ⟨⟨ProxyProvider.setProvider "g", rfl⟩,
   (C6_duplicate_guard some "" [("A", 0)] [("g", ProxyProvider.setProvider "g")]
     ⟨"g", "select", ["A"], [], "", 0, true, false, false, ""⟩
     (by decide) (by decide) (Or.inl rfl) (by decide)
     (by intro n hn; fin_cases hn <;> rfl)).1
     ⟨ProxyProvider.setProvider "g", rfl⟩⟩

/-- C7: a `use` name that resolves to a provider that is not a dynamic pool
fails resolution with the incompatible-reference error (the first such or
missing name wins); conversely, when every `use` name resolves to a
dynamic-pool provider, each reference yields a derived provider named
`"<source>-in-<group>"` that is both in the returned provider list and
registered as a dependent of its source provider. -/
theorem C7_use_compatibility (m : List (String × ProxyProvider))
    (g : GroupCommonOption) (f : Option String) (hc : HealthCheck)
    (hhc : newHealthCheck [] g = .ok hc) :
    (∀ pre n post p, g.use = pre ++ n :: post →
      (∀ x ∈ pre, ∃ pn, m.lookup x = some (.setProvider pn)) →
      m.lookup n = some p → p.isSet = false →
      (getProviders m g f g.use).1 = .error (.incompatibleUse n)) ∧
    ((∀ x ∈ g.use, ∃ pn, m.lookup x = some (.setProvider pn)) →
      ∀ n ∈ g.use, ∀ pn, m.lookup n = some (.setProvider pn) →
        (∃ l regs, getProviders m g f g.use = (.ok l, regs) ∧
          ProxyProvider.filterProvider (n ++ "-in-" ++ g.name)
            (.setProvider pn) hc f ∈ l ∧
          (ProxyProvider.setProvider pn,
           ProxyProvider.filterProvider (n ++ "-in-" ++ g.name)
             (.setProvider pn) hc f) ∈ regs)) := by
  constructor
  · intro pre n post p hsplit hpre hn hset
    rw [hsplit]
    exact getProviders_incompatible m g f hc pre n post p hhc hpre hn hset
  · intro hall n hn pn hpn
    have hgp := getProviders_all_set m g f hc g.use hhc hall
    refine ⟨_, _, hgp, ?_, ?_⟩
    · have : fpOf m g f hc n
          = ProxyProvider.filterProvider (n ++ "-in-" ++ g.name) (.setProvider pn) hc f := by
        simp [fpOf, hpn]
      rw [← this]
      exact List.mem_map_of_mem _ hn
    · have heq : ((m.lookup n).getD (.setProvider n), fpOf m g f hc n)
          = (ProxyProvider.setProvider pn,
             ProxyProvider.filterProvider (n ++ "-in-" ++ g.name) (.setProvider pn) hc f) := by
        simp [fpOf, hpn]
      rw [← heq]
      exact List.mem_map_of_mem _ hn

theorem C7_witness :
    newHealthCheck [] (⟨"g", "select", [], ["P", "Q"], "", 0, true, false, false, ""⟩ :
        GroupCommonOption) = .ok ⟨[], "", 0, true⟩ ∧
    (getProviders
        [("P", ProxyProvider.setProvider "P"),
         ("Q", ProxyProvider.compatible "Q" [1] ⟨[1], "", 0, true⟩)]
        ⟨"g", "select", [], ["P", "Q"], "", 0, true, false, false, ""⟩
        none ["P", "Q"]).1
      = .error (.incompatibleUse "Q") :=
  ⟨rfl,
   (C7_use_compatibility
     [("P", ProxyProvider.setProvider "P"),
      ("Q", ProxyProvider.compatible "Q" [1] ⟨[1], "", 0, true⟩)]
     ⟨"g", "select", [], ["P", "Q"], "", 0, true, false, false, ""⟩
     none ⟨[], "", 0, true⟩ rfl).1
     ["P"] "Q" [] (ProxyProvider.compatible "Q" [1] ⟨[1], "", 0, true⟩)
     rfl (by intro x hx; fin_cases hx <;> exact ⟨"P", rfl⟩) rfl rfl⟩

/-- C8: endpoint-name resolution preserves the input order exactly and keeps
duplicates; when a name is missing, it fails with the not-found error for
the first missing name in input order; consequently, a valid `select` group
with non-empty inline `proxies` resolves to an adapter whose synthetic
provider carries the endpoints in exactly the listed order. -/
theorem C8_resolve_order (pm : List (String × Proxy)) (names : List String) :
    ((∀ n ∈ names, (pm.lookup n).isSome) →
      getProxies pm names = .ok (names.map fun n => (pm.lookup n).getD 0)) ∧
    (∀ pre n post, names = pre ++ n :: post →
      (∀ x ∈ pre, (pm.lookup x).isSome) → pm.lookup n = none →
      getProxies pm names = .error (.notFound n)) ∧
    (∀ rc s prov (g : GroupCommonOption), g.name ≠ "" → g.typ = "select" →
      g.proxies = names → names ≠ [] → g.use = [] → g.filter = "" →
      (∀ n ∈ names, (pm.lookup n).isSome) → prov.lookup g.name = none →
      ∃ st, ParseProxyGroup rc (some g) s pm prov
        = (.ok (.selector g
            [.compatible g.name (names.map fun n => (pm.lookup n).getD 0)
              ⟨names.map fun n => (pm.lookup n).getD 0, "", 0, true⟩]), st)) := by
  refine ⟨fun h => getProxies_all_found pm names h, ?_, ?_⟩
  · intro pre n post hsplit hpre hn
    rw [hsplit]
    exact getProxies_first_missing pm pre n post hpre hn
  · intro rc s prov g hname htyp hpn hne huse hfil hres hdup
    have h1 : ¬(g.typ = "" ∨ g.name = "") := by simp [hname, htyp]
    have hcf : compileFilter rc g = .ok none := by simp [compileFilter, hfil]
    have h2 : ¬(g.proxies = [] ∧ g.use = []) := fun hcon => hne (hpn ▸ hcon.1)
    have hgx : getProxies pm g.proxies
        = .ok (names.map fun n => (pm.lookup n).getD 0) := by
      rw [hpn]; exact getProxies_all_found pm names hres
    have hp : g.proxies ≠ [] := by rw [hpn]; exact hne
    have hhc : newHealthCheck (names.map fun n => (pm.lookup n).getD 0) g
        = .ok ⟨names.map fun n => (pm.lookup n).getD 0, "", 0, true⟩ :=
      newHealthCheck_disabled _ g (Or.inl htyp)
    have hin : inlineStep pm prov g
        = .ok ([.compatible g.name (names.map fun n => (pm.lookup n).getD 0)
            ⟨names.map fun n => (pm.lookup n).getD 0, "", 0, true⟩],
          (g.name, ProxyProvider.compatible g.name
            (names.map fun n => (pm.lookup n).getD 0)
            ⟨names.map fun n => (pm.lookup n).getD 0, "", 0, true⟩) :: prov) := by
      simp [inlineStep, hp, hgx, hdup, hhc, NewCompatibleProvider]
    have hus : useStep ((g.name, ProxyProvider.compatible g.name
        (names.map fun n => (pm.lookup n).getD 0)
        ⟨names.map fun n => (pm.lookup n).getD 0, "", 0, true⟩) :: prov) g none
        = (.ok [], []) := by
      simp [useStep, huse]
    have hnf : g.typ ≠ "fallback" := by simp [htyp]
    refine ⟨_, parse_build rc g s pm prov none _ [] _ [] _ h1 hcf h2 hin hus ?_⟩
    rw [if_neg hnf]
    exact dispatch_select g s _ htyp

theorem C8_witness :
    ((∀ n ∈ ["B", "A", "B"],
        (([("A", 10), ("B", 20)] : List (String × Proxy)).lookup n).isSome) →
      getProxies [("A", 10), ("B", 20)] ["B", "A", "B"] = .ok [20, 10, 20]) ∧
    getProxies [("A", 10), ("B", 20)] ["B", "A", "B"] = .ok [20, 10, 20] ∧
    getProxies [("A", 10), ("B", 20)] ["B", "X", "B"] = .error (.notFound "X") :=
  ⟨fun h => ((C8_resolve_order [("A", 10), ("B", 20)] ["B", "A", "B"]).1 h).trans rfl,
   ((C8_resolve_order [("A", 10), ("B", 20)] ["B", "A", "B"]).1
     (by intro n hn; fin_cases hn <;> rfl)).trans rfl,
   (C8_resolve_order [("A", 10), ("B", 20)] ["B", "X", "B"]).2.1
     ["B"] "X" ["B"] rfl (by intro x hx; fin_cases hx <;> rfl) rfl⟩

end OutboundGroup
